import Mathlib

/-!
# peekabow: pipeline selection, issue enrichment and summary formatting

A shallow embedding of `main.go`.  Go strings are Lean `String`s, Go `int` is `Int`,
slices are `List`s, a function that returns `(value, error)` returns `Except`, and a
channel that is written by one goroutine and drained by one reader is the list of the
values sent on it, in sending order.
-/

set_option autoImplicit false

namespace Peekabow

/-! ## ZenHub types -/

/-- The struct `Issue` of `main.go`: one board entry, a bare issue number. -/
structure Issue where
  IssueNumber : Int
  deriving DecidableEq, Repr

/-- The struct `Pipeline` of `main.go`: a named, ordered bucket of issues. -/
structure Pipeline where
  Name : String
  Issues : List Issue
  deriving DecidableEq, Repr

/-- The type `Pipelines` of `main.go`: a slice of pipelines in board order. -/
abbrev Pipelines := List Pipeline

/-- The struct `Board` of `main.go`. -/
structure Board where
  Pipelines : Pipelines
  deriving DecidableEq, Repr

/-- The Go zero value `Pipeline{}`: empty name, no issues. -/
def Pipeline.zero : Pipeline := ⟨"", []⟩

/-- The method `Pipelines.Find`: the first pipeline, in slice order, that satisfies `f`,
with `true`; the zero pipeline with `false` when the loop runs off the end. -/
def Pipelines.Find (self : Pipelines) (f : Pipeline → Bool) : Pipeline × Bool :=
  match self with
  | [] => (Pipeline.zero, false)
  | pipeline :: rest => if f pipeline then (pipeline, true) else Pipelines.Find rest f

/-! ## Token settings and GitHub query results -/

/-- The struct `TokenConfig` of `main.go`: the two credentials of the `[token]` table. -/
structure TokenConfig where
  GitHub : String
  ZenHub : String
  deriving DecidableEq, Repr

/-- The struct `Config` of `main.go`. -/
structure Config where
  Token : TokenConfig
  deriving DecidableEq, Repr

/-- The struct `IssueFragment` of `main.go`: what the `findIssue` query leaves in
`query.Repository.IssueOrPullRequest.IssueFragment`. -/
structure IssueFragment where
  Title : String
  Url : String
  deriving DecidableEq, Repr

/-! ## Library functions the program calls -/

/-- The function `strconv.Itoa`: base-10 digits, preceded by `-` for a negative number. -/
def Itoa (n : Int) : String :=
  match n with
  | Int.ofNat m => Nat.repr m
  | Int.negSucc m => "-" ++ Nat.repr (m + 1)

/-- The conversion `githubql.Int(num)`.  `githubql.Int` is a 32-bit signed integer, so the
conversion from `int` keeps the low 32 bits, read in two's complement. -/
def githubqlInt (num : Int) : Int :=
  (num + 2 ^ 31) % 2 ^ 32 - 2 ^ 31

/-- The function `strings.HasSuffix`:
`len(s) >= len(suffix) && s[len(s)-len(suffix):] == suffix`.  Lengths are counted in
characters; for the one-byte suffix `"\n"`, the only one the program uses, a string ends
with the suffix as characters exactly when it does as bytes. -/
def HasSuffix (s suffix : String) : Bool :=
  decide (suffix.data.length ≤ s.data.length) &&
    (s.data.drop (s.data.length - suffix.data.length) == suffix.data)

/-- The function `strings.TrimSuffix`: `s` without the trailing `suffix` when it has one,
`s` unchanged otherwise.  At most one copy of the suffix is removed. -/
def TrimSuffix (s suffix : String) : String :=
  if HasSuffix s suffix then ⟨s.data.take (s.data.length - suffix.data.length)⟩ else s

/-! ## The enrichment pipeline -/

/-- The function `toNumber`: the goroutine sends the number of every issue, in slice
order, then closes the channel; the result is the sequence of values sent. -/
def toNumber (issues : List Issue) : List Int :=
  match issues with
  | [] => []
  | issue :: rest => issue.IssueNumber :: toNumber rest

/-- The function `message`.  `query token owner repo number` stands for
`github.Query(ctx, &query, args)` with the `findIssue` query, on the client built from
`token`: `.error` is a non-nil `err`, on which the goroutine panics, `.ok` is the fragment
the query filled in.  One query per number received; a line is sent only when the title
is not empty.  The result is the sequence of strings sent before the channel is closed. -/
def message (query : String → String → String → Int → Except String IssueFragment)
    (token owner repo : String) (received : List Int) : Except String (List String) :=
  match received with
  | [] => .ok []
  | num :: rest =>
    match query token owner repo (githubqlInt num) with
    | .error err => .error err
    | .ok issue =>
      if issue.Title != "" then
        match message query token owner repo rest with
        | .error err => .error err
        | .ok sent =>
          .ok (("#" ++ Itoa num ++ ": " ++ issue.Title ++ " : " ++ issue.Url) :: sent)
      else
        message query token owner repo rest

/-! ## The summary -/

/-- Lines 215 to 218 of `main.go`: every message drained from the channel is written
to the buffer followed by a newline; the result is `buffer.String()`. -/
def bufferOf (out : List String) : String :=
  out.foldl (fun buffer msg => buffer ++ (msg ++ "\n")) ""

/-- The variable `summary` of line 219: the buffer without one trailing newline. -/
def summaryOf (out : List String) : String :=
  TrimSuffix (bufferOf out) "\n"

/-- Lines 219 to 223: the string handed to the last `fmt.Println`. -/
def printedSummary (out : List String) : String :=
  if summaryOf out != "" then summaryOf out else "😄  No Issue"

/-! ## The command `issues` -/

/-- An HTTP response as `showIssues` reads it: the status, which the program never
inspects, and the bytes `ioutil.ReadAll` returned (its error is discarded). -/
structure Response where
  StatusCode : Nat
  Body : String
  deriving DecidableEq, Repr

/-- Everything `showIssues` reads from outside: the global flags of the command line,
the path `tomlData` set by `main`, and the four external calls.  A call that can return
a non-nil `error` returns `Except`; `zenHubDo url token` is `zenHub.Do(req)` for the GET
request to `url` with header `X-Authentication-Token: token`, `none` being the nil
response of a failed transport. -/
structure Env where
  verbose : Bool
  owner : String
  repo : String
  pipeline : String
  tomlData : String
  decodeFile : String → Except String Config
  queryRepoId : String → String → String → Except String Int
  zenHubDo : String → String → Option Response
  unmarshal : String → Except String Board
  queryIssue : String → String → String → Int → Except String IssueFragment

/-- How a run of `showIssues` ends: it returns or it panics; `stdout` holds the argument
of every `fmt.Println` executed so far, in order. -/
inductive Outcome where
  | returned (stdout : List String)
  | panicked (stdout : List String) (err : String)
  deriving DecidableEq, Repr

/-- The function `log`: prints only under `--verbose`. -/
def log (verbose : Bool) (stdout : List String) (a : String) : List String :=
  if verbose then stdout ++ [a] else stdout

/-- Lines 145 to 185 of `showIssues`: the flags, the token file and the repository id.
`.inl` is a run that ends here, `.inr` carries what was printed, the configuration and
`query.Repository.DatabaseId`. -/
def resolveRepository (c : Env) : Outcome ⊕ (List String × Config × Int) :=
  let stdout := log c.verbose [] "👀  Load global flags..."
  if c.owner == "" || c.repo == "" || c.pipeline == "" then
    .inl (.returned (stdout ++ ["❌  Please set --owner, --repo, and --pipeline. See help."]))
  else
    let stdout := log c.verbose stdout "📄  Load token settings from toml..."
    match c.decodeFile c.tomlData with
    | .error err => .inl (.panicked stdout err)
    | .ok config =>
      let count := (if config.Token.GitHub == "" then 1 else 0) +
        (if config.Token.ZenHub == "" then 1 else 0)
      if count > 0 then
        let example_ := "[token]\ngithub = \"xxx...\"\nzenhub = \"yyy...\""
        .inl (.returned (stdout ++
          ["❌  Please set your token in " ++ c.tomlData ++ ". Just like below:\n" ++ example_]))
      else
        let stdout := log c.verbose stdout "🔍  Search repository ID from GitHub..."
        match c.queryRepoId config.Token.GitHub c.owner c.repo with
        | .error err => .inl (.panicked stdout err)
        | .ok databaseId =>
          .inr (log c.verbose stdout ("👍  Found repository ID: " ++ Itoa databaseId),
            config, databaseId)

/-- Lines 187 to 201 of `showIssues`: the board request.  A nil response panics at
`defer resp.Body.Close()`; the status is not looked at; a body that `json.Unmarshal`
rejects panics. -/
def fetchBoard (c : Env) (stdout : List String) (config : Config) (databaseId : Int) :
    Outcome ⊕ (List String × Board) :=
  let stdout := log c.verbose stdout "🔍  Search pipeline issues from ZenHub..."
  match c.zenHubDo ("https://api.zenhub.io/p1/repositories/" ++ Itoa databaseId ++ "/board")
      config.Token.ZenHub with
  | none => .inl (.panicked stdout "runtime error: invalid memory address or nil pointer dereference")
  | some resp =>
    let body := resp.Body
    match c.unmarshal body with
    | .error err => .inl (.panicked stdout err)
    | .ok board => .inr (stdout, board)

/-- Lines 202 to 224 of `showIssues`: pipeline selection and the report. -/
def selectAndReport (c : Env) (stdout : List String) (config : Config) (board : Board) :
    Outcome :=
  let (p, found) := board.Pipelines.Find (fun p => p.Name == c.pipeline)
  if !found then
    .returned (stdout ++ ["❌  Not Found: " ++ c.pipeline,
      "❌  Please check whether if your ZenHub pipeline's name is correct."])
  else
    let stdout := stdout ++
      ["🔽  " ++ c.owner ++ "/" ++ c.repo ++ ": " ++ c.pipeline ++ "'s issues here:"]
    match message c.queryIssue config.Token.GitHub c.owner c.repo (toNumber p.Issues) with
    | .error err => .panicked stdout err
    | .ok out => .returned (stdout ++ [printedSummary out])

/-- Lines 145 to 201 of `showIssues`: the two parts before pipeline selection, in
sequence. -/
def loadBoard (c : Env) : Outcome ⊕ (List String × Config × Board) :=
  match resolveRepository c with
  | .inl ended => .inl ended
  | .inr (stdout, config, databaseId) =>
    match fetchBoard c stdout config databaseId with
    | .inl ended => .inl ended
    | .inr (stdout, board) => .inr (stdout, config, board)

/-- The function `showIssues`: lines 145 to 201, then lines 202 to 224. -/
def showIssues (c : Env) : Outcome :=
  match loadBoard c with
  | .inl ended => ended
  | .inr (stdout, config, board) => selectAndReport c stdout config board

/-! ## Two concrete runs -/

/-- The body of a board response: a JSON object with a `pipelines` array, `Backlog` with
issue 1 and `In Progress` with issues 7 and 8. -/
def boardJson : String :=
  "\x7b\"pipelines\":[" ++
    "\x7b\"name\":\"Backlog\",\"issues\":[\x7b\"issue_number\":1\x7d]\x7d," ++
    "\x7b\"name\":\"In Progress\",\"issues\":" ++
      "[\x7b\"issue_number\":7\x7d,\x7b\"issue_number\":8\x7d]\x7d]\x7d"

/-- The body of an error response: a JSON object with a `message` and no `pipelines`. -/
def errorJson : String :=
  "\x7b\"message\":\"Not found\"\x7d"

/-- A run for owner `acme`, repository `widget` and pipeline `In Progress`: the repository
id resolves to 555, the board service answers with `boardJson`, which decodes to the board
it describes, issue 7 has title `Add logging` and url `.../7`, every other issue has no
title. -/
def scenario : Env where
  verbose := false
  owner := "acme"
  repo := "widget"
  pipeline := "In Progress"
  tomlData := "/home/dev/.config/peekabow/config.toml"
  decodeFile := fun _ => .ok ⟨⟨"github-token", "zenhub-token"⟩⟩
  queryRepoId := fun _ owner repo =>
    if owner == "acme" && repo == "widget" then .ok 555 else .error "repository not found"
  zenHubDo := fun url _ =>
    if url == "https://api.zenhub.io/p1/repositories/555/board" then
      some ⟨200, boardJson⟩
    else none
  unmarshal := fun body =>
    if body == boardJson then
      .ok ⟨[⟨"Backlog", [⟨1⟩]⟩, ⟨"In Progress", [⟨7⟩, ⟨8⟩]⟩]⟩
    else .error "invalid character"
  queryIssue := fun _ _ _ number =>
    if number = 7 then .ok ⟨"Add logging", ".../7"⟩ else .ok ⟨"", ""⟩

/-- The same run when the board service answers with status 404 and `errorJson`:
`json.Unmarshal` ignores the unknown key `message` and leaves `Pipelines` at its zero
value without an error. -/
def errorReply : Env :=
  { scenario with
    zenHubDo := fun _ _ => some ⟨404, errorJson⟩
    unmarshal := fun body =>
      if body == errorJson then .ok ⟨[]⟩ else .error "invalid character" }

/-- The environment `c` with the status of every board response replaced by `status`. -/
def withStatus (c : Env) (status : Nat) : Env :=
  { c with
    zenHubDo := fun url token =>
      match c.zenHubDo url token with
      | none => none
      | some resp => some { resp with StatusCode := status } }

/-! ## Pipeline selection -/

theorem Find_of_none (f : Pipeline → Bool) (board : Pipelines)
    (h : ∀ q ∈ board, f q = false) : board.Find f = (Pipeline.zero, false) := by
  induction board with
  | nil => rfl
  | cons q rest ih =>
    have hq : f q = false := h q (List.mem_cons_self q rest)
    have hrest : ∀ r ∈ rest, f r = false := fun r hr => h r (List.mem_cons_of_mem q hr)
    simp [Pipelines.Find, hq, ih hrest]

theorem Find_append_of_none (f : Pipeline → Bool) (before rest : Pipelines)
    (h : ∀ q ∈ before, f q = false) : Pipelines.Find (before ++ rest) f = rest.Find f := by
  induction before with
  | nil => rfl
  | cons q more ih =>
    have hq : f q = false := h q (List.mem_cons_self q more)
    have hmore : ∀ r ∈ more, f r = false := fun r hr => h r (List.mem_cons_of_mem q hr)
    simp [Pipelines.Find, hq, ih hmore]

theorem Find_found_split (f : Pipeline → Bool) (board : Pipelines) (p : Pipeline)
    (h : board.Find f = (p, true)) :
    ∃ before after, board = before ++ p :: after ∧ f p = true ∧ ∀ q ∈ before, f q = false := by
  induction board with
  | nil => simp [Pipelines.Find] at h
  | cons q rest ih =>
    by_cases hq : f q = true
    · simp [Pipelines.Find, hq] at h
      subst h
      exact ⟨[], rest, rfl, hq, by simp⟩
    · have hq' : f q = false := by simpa using hq
      simp [Pipelines.Find, hq'] at h
      obtain ⟨before, after, hsplit, hp, hnone⟩ := ih h
      refine ⟨q :: before, after, by simp [hsplit], hp, ?_⟩
      intro r hr
      rcases List.mem_cons.mp hr with rfl | hr
      · exact hq'
      · exact hnone r hr

theorem Find_snd_false_iff (f : Pipeline → Bool) (board : Pipelines) :
    (board.Find f).2 = false ↔ ∀ q ∈ board, f q = false := by
  induction board with
  | nil => simp [Pipelines.Find]
  | cons q rest ih =>
    by_cases hq : f q = true
    · simp [Pipelines.Find, hq]
    · have hq' : f q = false := by simpa using hq
      simp [Pipelines.Find, hq', ih]

/-- C1: when `Find` is called with the predicate `p.Name == name` and reports found, the
pipeline it returns sits in the board after a run of pipelines none of which has the
requested name, and its own name is exactly the requested one; conversely the first
pipeline with that name is the one returned, so a later pipeline of the same name never
is.  String equality is exact, hence case-sensitive. -/
theorem Find_returns_first_named (board : Pipelines) (name : String) (p : Pipeline) :
    board.Find (fun p => p.Name == name) = (p, true) ↔
      ∃ before after, board = before ++ p :: after ∧ p.Name = name ∧
        ∀ q ∈ before, q.Name ≠ name := by
  constructor
  · intro h
    obtain ⟨before, after, hsplit, hp, hnone⟩ := Find_found_split _ board p h
    refine ⟨before, after, hsplit, by simpa using hp, ?_⟩
    intro q hq
    simpa using hnone q hq
  · rintro ⟨before, after, hsplit, hp, hnone⟩
    subst hsplit
    rw [Find_append_of_none _ before (p :: after) (by simpa using hnone)]
    simp [Pipelines.Find, hp]

/-- Witness of C1: on a board that holds `backlog`, then `Backlog` twice, the request
`Backlog` selects the second pipeline, not the differently cased first one and not the
later namesake. -/
theorem Find_returns_first_named_witness :
    Pipelines.Find [⟨"backlog", [⟨1⟩]⟩, ⟨"Backlog", [⟨2⟩]⟩, ⟨"Backlog", [⟨3⟩]⟩]
        (fun p => p.Name == "Backlog") = (⟨"Backlog", [⟨2⟩]⟩, true) ∧
      ∃ before after,
        [⟨"backlog", [⟨1⟩]⟩, ⟨"Backlog", [⟨2⟩]⟩, ⟨"Backlog", [⟨3⟩]⟩]
            = before ++ (⟨"Backlog", [⟨2⟩]⟩ : Pipeline) :: after ∧
          (⟨"Backlog", [⟨2⟩]⟩ : Pipeline).Name = "Backlog" ∧
          ∀ q ∈ before, q.Name ≠ "Backlog" :=
  ⟨by decide, (Find_returns_first_named _ "Backlog" ⟨"Backlog", [⟨2⟩]⟩).mp (by decide)⟩

/-- C2: selection with the name-equality predicate reports not-found, and then hands
back the zero pipeline (empty name, no issues), exactly when no pipeline of the board has
the requested name; `Find` is a total function, so not-found is an ordinary result, and
the empty board gives it for every name. -/
theorem Find_not_found_iff (board : Pipelines) (name : String) :
    ((board.Find (fun p => p.Name == name)).2 = false ↔ ∀ q ∈ board, q.Name ≠ name) ∧
    (board.Find (fun p => p.Name == name) = (Pipeline.zero, false) ↔
      ∀ q ∈ board, q.Name ≠ name) ∧
    Pipelines.Find [] (fun p => p.Name == name) = (Pipeline.zero, false) ∧
    Pipeline.zero.Name = "" ∧ Pipeline.zero.Issues = [] := by
  have key : (board.Find (fun p => p.Name == name)).2 = false ↔
      ∀ q ∈ board, q.Name ≠ name := by
    rw [Find_snd_false_iff]
    simp
  refine ⟨key, ⟨fun h => key.mp (by rw [h]), fun h => ?_⟩, rfl, rfl, rfl⟩
  exact Find_of_none _ board (by simpa using h)

/-! ## The enrichment stream -/

theorem toNumber_eq_map (issues : List Issue) :
    toNumber issues = issues.map (fun i => i.IssueNumber) := by
  induction issues with
  | nil => rfl
  | cons i rest ih => simp [toNumber, ih]

/-- When every query of the run answers with the fragment `lookup` gives, `message` sends
the formatted line of every number whose title is not empty, in the order received. -/
theorem message_of_lookup (query : String → String → String → Int → Except String IssueFragment)
    (lookup : Int → IssueFragment) (token owner repo : String) (received : List Int)
    (h : ∀ num ∈ received,
      query token owner repo (githubqlInt num) = .ok (lookup (githubqlInt num))) :
    message query token owner repo received =
      .ok ((received.filter (fun num => (lookup (githubqlInt num)).Title != "")).map
        (fun num => "#" ++ Itoa num ++ ": " ++ (lookup (githubqlInt num)).Title ++ " : " ++
          (lookup (githubqlInt num)).Url)) := by
  induction received with
  | nil => rfl
  | cons num rest ih =>
    have hnum := h num (List.mem_cons_self num rest)
    have hrest := ih (fun n hn => h n (List.mem_cons_of_mem num hn))
    by_cases ht : (lookup (githubqlInt num)).Title = ""
    · simp [message, hnum, hrest, ht]
    · simp [message, hnum, hrest, ht]

theorem githubqlInt_of_int32 (num : Int) (h : -2 ^ 31 ≤ num ∧ num < 2 ^ 31) :
    githubqlInt num = num := by
  unfold githubqlInt
  omega

/-- Counterexample to C3: the pipeline holds the one issue 4294967303 and only issue 7 has
a title.  The query carries `githubql.Int(4294967303)`, which is 7, so `message` sends a
line that pairs the number 4294967303 with the title and URL of issue 7, while the issue
looked up under its own number has an empty title and the claim leaves it out. -/
theorem message_looks_up_32_bit_number :
    githubqlInt 4294967303 = 7 ∧
    message (fun _ _ _ number => .ok (if number = 7 then ⟨"t", "u"⟩ else ⟨"", ""⟩))
        "token" "acme" "widget" (toNumber [⟨4294967303⟩]) =
      .ok ["#4294967303: t : u"] ∧
    (([⟨4294967303⟩] : List Issue).filter
        (fun i => ((fun number : Int => (if number = 7 then ⟨"t", "u"⟩ else ⟨"", ""⟩ :
          IssueFragment)) i.IssueNumber).Title != "")).map
      (fun i => "#" ++ Itoa i.IssueNumber ++ ": " ++
        ((fun number : Int => (if number = 7 then ⟨"t", "u"⟩ else ⟨"", ""⟩ :
          IssueFragment)) i.IssueNumber).Title ++ " : " ++
        ((fun number : Int => (if number = 7 then ⟨"t", "u"⟩ else ⟨"", ""⟩ :
          IssueFragment)) i.IssueNumber).Url) = [] :=
  ⟨by decide, rfl, by decide⟩

/-- C3, amended: with a lookup that never fails, `message (toNumber issues)` sends exactly
the issues of the pipeline in their original order, each issue whose looked-up title is
empty left out and every other one turned into its formatted line, where the title and URL
looked up for an issue are those of the number passed in the query, `githubql.Int(num)`;
when every issue number fits in a signed 32-bit integer that number is the issue number
itself.  For the issues 101, 102, 103 of which only 101 and 103 have a title, it sends the
line of 101 and then the line of 103. -/
theorem message_toNumber_preserves_order :
    (∀ (lookup : Int → IssueFragment) (token owner repo : String) (issues : List Issue),
      message (fun _ _ _ number => .ok (lookup number)) token owner repo (toNumber issues) =
        .ok ((issues.filter
            (fun i => (lookup (githubqlInt i.IssueNumber)).Title != "")).map
          (fun i => "#" ++ Itoa i.IssueNumber ++ ": " ++
            (lookup (githubqlInt i.IssueNumber)).Title ++ " : " ++
            (lookup (githubqlInt i.IssueNumber)).Url))) ∧
    (∀ (lookup : Int → IssueFragment) (token owner repo : String) (issues : List Issue),
      (∀ i ∈ issues, -2 ^ 31 ≤ i.IssueNumber ∧ i.IssueNumber < 2 ^ 31) →
      message (fun _ _ _ number => .ok (lookup number)) token owner repo (toNumber issues) =
        .ok ((issues.filter (fun i => (lookup i.IssueNumber).Title != "")).map
          (fun i => "#" ++ Itoa i.IssueNumber ++ ": " ++ (lookup i.IssueNumber).Title ++
            " : " ++ (lookup i.IssueNumber).Url))) ∧
    (∀ (lookup : Int → IssueFragment) (token owner repo : String),
      (lookup 101).Title ≠ "" → (lookup 102).Title = "" → (lookup 103).Title ≠ "" →
      message (fun _ _ _ number => .ok (lookup number)) token owner repo
          (toNumber [⟨101⟩, ⟨102⟩, ⟨103⟩]) =
        .ok ["#101: " ++ (lookup 101).Title ++ " : " ++ (lookup 101).Url,
          "#103: " ++ (lookup 103).Title ++ " : " ++ (lookup 103).Url]) := by
  have general : ∀ (lookup : Int → IssueFragment) (token owner repo : String)
      (issues : List Issue),
      message (fun _ _ _ number => .ok (lookup number)) token owner repo (toNumber issues) =
        .ok ((issues.filter
            (fun i => (lookup (githubqlInt i.IssueNumber)).Title != "")).map
          (fun i => "#" ++ Itoa i.IssueNumber ++ ": " ++
            (lookup (githubqlInt i.IssueNumber)).Title ++ " : " ++
            (lookup (githubqlInt i.IssueNumber)).Url)) := by
    intro lookup token owner repo issues
    rw [message_of_lookup _ lookup token owner repo (toNumber issues) (fun _ _ => rfl),
      toNumber_eq_map, List.filter_map, List.map_map]
    rfl
  refine ⟨general, ?_, ?_⟩
  · intro lookup token owner repo issues hrange
    rw [general]
    have hfilter : issues.filter (fun i => (lookup (githubqlInt i.IssueNumber)).Title != "") =
        issues.filter (fun i => (lookup i.IssueNumber).Title != "") :=
      List.filter_congr (fun i hi => by rw [githubqlInt_of_int32 _ (hrange i hi)])
    rw [hfilter]
    congr 1
    apply List.map_congr_left
    intro i hi
    rw [githubqlInt_of_int32 _ (hrange i (List.mem_of_mem_filter hi))]
  intro lookup token owner repo h101 h102 h103
  rw [general]
  have e101 : githubqlInt 101 = 101 := by decide
  have e102 : githubqlInt 102 = 102 := by decide
  have e103 : githubqlInt 103 = 103 := by decide
  have i101 : Itoa 101 = "101" := by decide
  have i103 : Itoa 103 = "103" := by decide
  have a101 : "#" ++ "101" ++ ": " = "#101: " := by decide
  have a103 : "#" ++ "103" ++ ": " = "#103: " := by decide
  have b101 : ((lookup 101).Title != "") = true := by simpa using h101
  have b102 : ((lookup 102).Title != "") = false := by simp [h102]
  have b103 : ((lookup 103).Title != "") = true := by simpa using h103
  simp only [List.filter, e101, e102, e103, b101, b102, b103, List.map, i101, i103, a101,
    a103]

/-- Witness of C3, amended: issue 102 has no title and is left out, and the duplicated issue 101
is enriched twice, not deduplicated. -/
theorem message_toNumber_preserves_order_witness :
    message (fun _ _ _ number => .ok (if number = 102 then ⟨"", ""⟩ else ⟨"t", "u"⟩))
        "token" "acme" "widget" (toNumber [⟨101⟩, ⟨102⟩, ⟨103⟩]) =
      .ok ["#101: t : u", "#103: t : u"] ∧
    message (fun _ _ _ number => .ok (if number = 102 then ⟨"", ""⟩ else ⟨"t", "u"⟩))
        "token" "acme" "widget" (toNumber [⟨101⟩, ⟨102⟩, ⟨101⟩]) =
      .ok ["#101: t : u", "#101: t : u"] :=
  ⟨message_toNumber_preserves_order.2.2
      (fun number => if number = 102 then ⟨"", ""⟩ else ⟨"t", "u"⟩) "token" "acme" "widget"
      (by decide) (by decide) (by decide),
    message_toNumber_preserves_order.1
      (fun number => if number = 102 then ⟨"", ""⟩ else ⟨"t", "u"⟩) "token" "acme" "widget"
      [⟨101⟩, ⟨102⟩, ⟨101⟩]⟩

/-- C4: for a non-empty title, the one line sent for an issue is `#`, the decimal digits
of the number, `: `, the title, ` : ` and the URL, nothing else. -/
theorem message_line_format (num : Int) (title url token owner repo : String)
    (h : title ≠ "") :
    message (fun _ _ _ _ => .ok ⟨title, url⟩) token owner repo [num] =
      .ok ["#" ++ Itoa num ++ ": " ++ title ++ " : " ++ url] := by
  simp [message, h]

/-- Witness of C4: number 101, title `Fix bug` and url `http://x/101` give the line
`#101: Fix bug : http://x/101`. -/
theorem message_line_format_witness :
    message (fun _ _ _ _ => .ok ⟨"Fix bug", "http://x/101"⟩) "token" "acme" "widget" [101] =
      .ok ["#101: Fix bug : http://x/101"] :=
  message_line_format 101 "Fix bug" "http://x/101" "token" "acme" "widget" (by decide)

/-! ## The summary -/

theorem HasSuffix_newline_iff (s : String) :
    HasSuffix s "\n" = true ↔ ∃ front : String, s = front ++ "\n" := by
  constructor
  · intro h
    simp only [HasSuffix, Bool.and_eq_true, decide_eq_true_eq, beq_iff_eq] at h
    refine ⟨⟨s.data.take (s.data.length - ("\n" : String).data.length)⟩, ?_⟩
    apply String.ext
    rw [String.data_append]
    conv_lhs => rw [← List.take_append_drop (s.data.length - ("\n" : String).data.length) s.data]
    rw [h.2]
  · rintro ⟨front, rfl⟩
    have hlen : ("\n" : String).data.length = 1 := rfl
    simp only [HasSuffix, Bool.and_eq_true, decide_eq_true_eq, beq_iff_eq, String.data_append,
      List.length_append, hlen]
    refine ⟨by omega, ?_⟩
    rw [Nat.add_sub_cancel, List.drop_left]

theorem TrimSuffix_append_newline (front : String) :
    TrimSuffix (front ++ "\n") "\n" = front := by
  have hs : HasSuffix (front ++ "\n") "\n" = true :=
    (HasSuffix_newline_iff _).mpr ⟨front, rfl⟩
  have hlen : ("\n" : String).data.length = 1 := rfl
  simp only [TrimSuffix, hs, if_true, String.data_append, List.length_append, hlen]
  apply String.ext
  simp

theorem bufferOf_append_singleton (out : List String) (msg : String) :
    bufferOf (out ++ [msg]) = bufferOf out ++ (msg ++ "\n") := by
  simp [bufferOf, List.foldl_append]

theorem summaryOf_append_singleton (out : List String) (msg : String) :
    summaryOf (out ++ [msg]) = bufferOf out ++ msg := by
  rw [summaryOf, bufferOf_append_singleton, ← String.append_assoc, TrimSuffix_append_newline]

theorem foldl_buffer_eq_go (acc : String) (out : List String) :
    out.foldl (fun buffer msg => buffer ++ (msg ++ "\n")) (acc ++ "\n") =
      String.intercalate.go acc "\n" out ++ "\n" := by
  induction out generalizing acc with
  | nil => rfl
  | cons msg rest ih =>
    simp only [List.foldl_cons, String.intercalate.go]
    rw [← String.append_assoc, ih]

theorem bufferOf_cons (msg : String) (rest : List String) :
    bufferOf (msg :: rest) = String.intercalate "\n" (msg :: rest) ++ "\n" := by
  simp only [bufferOf, List.foldl_cons, String.empty_append, String.intercalate]
  exact foldl_buffer_eq_go msg rest

/-- The trimmed buffer of a non-empty sequence is the sequence joined by single newlines. -/
theorem summaryOf_eq_intercalate (out : List String) (h : out ≠ []) :
    summaryOf out = String.intercalate "\n" out := by
  cases out with
  | nil => exact absurd rfl h
  | cons msg rest => rw [summaryOf, bufferOf_cons, TrimSuffix_append_newline]

theorem go_extends_acc (acc sep : String) (out : List String) :
    ∃ tail : String, String.intercalate.go acc sep out = acc ++ tail := by
  induction out generalizing acc with
  | nil => exact ⟨"", by simp [String.intercalate.go]⟩
  | cons msg rest ih =>
    obtain ⟨tail, ht⟩ := ih (acc ++ sep ++ msg)
    refine ⟨sep ++ msg ++ tail, ?_⟩
    rw [String.intercalate.go, ht]
    simp only [String.append_assoc]

theorem summaryOf_cons_extends (msg : String) (rest : List String) :
    ∃ tail : String, summaryOf (msg :: rest) = msg ++ tail := by
  rw [summaryOf_eq_intercalate _ (List.cons_ne_nil msg rest)]
  exact go_extends_acc msg "\n" rest

/-- Every string `message` sends begins with `#`. -/
theorem message_lines_start (query : String → String → String → Int → Except String IssueFragment)
    (token owner repo : String) (received : List Int) (out : List String)
    (h : message query token owner repo received = .ok out) :
    ∀ msg ∈ out, ∃ tail : String, msg = "#" ++ tail := by
  induction received generalizing out with
  | nil =>
    simp only [message, Except.ok.injEq] at h
    subst h
    simp
  | cons num rest ih =>
    simp only [message] at h
    cases hq : query token owner repo (githubqlInt num) with
    | error err => simp [hq] at h
    | ok issue =>
      rw [hq] at h
      by_cases ht : (issue.Title != "") = true
      · simp only [ht, if_true] at h
        cases hm : message query token owner repo rest with
        | error err => simp [hm] at h
        | ok sent =>
          rw [hm] at h
          simp only [Except.ok.injEq] at h
          subst h
          intro msg hmsg
          rcases List.mem_cons.mp hmsg with rfl | hmsg
          · exact ⟨Itoa num ++ ": " ++ issue.Title ++ " : " ++ issue.Url, by
              simp [String.append_assoc]⟩
          · exact ih sent hm msg hmsg
      · simp only [ht] at h
        exact ih out h

theorem printedSummary_nil : printedSummary [] = "😄  No Issue" := by decide

theorem summaryOf_starts_with_hash (out : List String) (h : out ≠ [])
    (hstart : ∀ msg ∈ out, ∃ tail : String, msg = "#" ++ tail) :
    ∃ tail : String, summaryOf out = "#" ++ tail := by
  cases out with
  | nil => exact absurd rfl h
  | cons msg rest =>
    obtain ⟨tail, ht⟩ := hstart msg (List.mem_cons_self msg rest)
    obtain ⟨more, hm⟩ := summaryOf_cons_extends msg rest
    exact ⟨tail ++ more, by rw [hm, ht, String.append_assoc]⟩

theorem hash_append_ne_empty (tail : String) : "#" ++ tail ≠ "" := by
  intro h
  have hd := congrArg String.data h
  rw [String.data_append] at hd
  exact absurd hd (by simp)

theorem hash_append_ne_sentinel (tail : String) : "#" ++ tail ≠ "😄  No Issue" := by
  intro h
  have hd := congrArg (fun t : String => t.data.head?) h
  simp only [String.data_append] at hd
  have hl : (("#" : String).data ++ tail.data).head? = some '#' := rfl
  rw [hl] at hd
  exact absurd hd (by decide)

/-- For a non-empty sequence of strings that all begin with `#`, the emptiness test of
line 219 succeeds: the trimmed buffer is printed, and it is not the sentinel. -/
theorem printedSummary_of_lines (out : List String) (h : out ≠ [])
    (hstart : ∀ msg ∈ out, ∃ tail : String, msg = "#" ++ tail) :
    printedSummary out = summaryOf out ∧ summaryOf out ≠ "" ∧
      summaryOf out ≠ "😄  No Issue" := by
  obtain ⟨tail, ht⟩ := summaryOf_starts_with_hash out h hstart
  have hne : summaryOf out ≠ "" := by rw [ht]; exact hash_append_ne_empty tail
  refine ⟨?_, hne, by rw [ht]; exact hash_append_ne_sentinel tail⟩
  simp [printedSummary, hne]

/-- When `message` completes, it has sent nothing exactly when every query answered with
an empty title. -/
theorem message_nil_iff (query : String → String → String → Int → Except String IssueFragment)
    (token owner repo : String) (received : List Int) (out : List String)
    (h : message query token owner repo received = .ok out) :
    out = [] ↔ ∀ num ∈ received, ∀ issue,
      query token owner repo (githubqlInt num) = .ok issue → issue.Title = "" := by
  induction received generalizing out with
  | nil =>
    simp only [message, Except.ok.injEq] at h
    subst h
    simp
  | cons num rest ih =>
    simp only [message] at h
    cases hq : query token owner repo (githubqlInt num) with
    | error err => simp [hq] at h
    | ok issue =>
      rw [hq] at h
      by_cases ht : (issue.Title != "") = true
      · simp only [ht, if_true] at h
        cases hm : message query token owner repo rest with
        | error err => simp [hm] at h
        | ok sent =>
          rw [hm] at h
          simp only [Except.ok.injEq] at h
          subst h
          constructor
          · intro hnil
            exact absurd hnil (List.cons_ne_nil _ _)
          · intro hall
            have := hall num (List.mem_cons_self num rest) issue hq
            simp [this] at ht
      · simp only [ht] at h
        have hte : issue.Title = "" := by simpa using ht
        rw [ih out h]
        constructor
        · intro hall n hn issue' hq'
          rcases List.mem_cons.mp hn with rfl | hn
          · rw [hq] at hq'
            simp only [Except.ok.injEq] at hq'
            subst hq'
            exact hte
          · exact hall n hn issue' hq'
        · intro hall n hn issue' hq'
          exact hall n (List.mem_cons_of_mem num hn) issue' hq'

/-- When every query answers with an empty title, `message` completes and sends nothing. -/
theorem message_all_empty (query : String → String → String → Int → Except String IssueFragment)
    (token owner repo : String) (received : List Int)
    (h : ∀ num ∈ received, ∃ issue,
      query token owner repo (githubqlInt num) = .ok issue ∧ issue.Title = "") :
    message query token owner repo received = .ok [] := by
  induction received with
  | nil => rfl
  | cons num rest ih =>
    obtain ⟨issue, hq, ht⟩ := h num (List.mem_cons_self num rest)
    have hrest := ih (fun n hn => h n (List.mem_cons_of_mem num hn))
    simp [message, hq, ht, hrest]

theorem mem_toNumber (issues : List Issue) (num : Int) :
    num ∈ toNumber issues ↔ ∃ i ∈ issues, i.IssueNumber = num := by
  rw [toNumber_eq_map]
  simp

theorem showIssues_of_loadBoard (c : Env) (stdout : List String) (config : Config)
    (board : Board) (hload : loadBoard c = .inr (stdout, config, board)) :
    showIssues c = selectAndReport c stdout config board := by
  simp [showIssues, hload]

theorem selectAndReport_found (c : Env) (stdout : List String) (config : Config)
    (board : Board) (p : Pipeline) (out : List String)
    (hfind : board.Pipelines.Find (fun p => p.Name == c.pipeline) = (p, true))
    (hmsg : message c.queryIssue config.Token.GitHub c.owner c.repo (toNumber p.Issues) =
      .ok out) :
    selectAndReport c stdout config board =
      .returned (stdout ++
        ["🔽  " ++ c.owner ++ "/" ++ c.repo ++ ": " ++ c.pipeline ++ "'s issues here:",
          printedSummary out]) := by
  simp [selectAndReport, hfind, hmsg]

theorem HasSuffix_newline_iff_getLast (s : String) :
    HasSuffix s "\n" = true ↔ s.data.getLast? = some '\n' := by
  rw [HasSuffix_newline_iff, List.getLast?_eq_some_iff]
  constructor
  · rintro ⟨front, rfl⟩
    exact ⟨front.data, by rw [String.data_append]⟩
  · rintro ⟨ys, hys⟩
    exact ⟨⟨ys⟩, String.ext (by rw [String.data_append, hys])⟩

theorem HasSuffix_append_of_ne_empty (front last : String) (h : last ≠ "") :
    HasSuffix (front ++ last) "\n" = HasSuffix last "\n" := by
  have hd : last.data ≠ [] := fun hnil => h (String.ext hnil)
  have key : HasSuffix (front ++ last) "\n" = true ↔ HasSuffix last "\n" = true := by
    rw [HasSuffix_newline_iff_getLast, HasSuffix_newline_iff_getLast, String.data_append,
      List.getLast?_append_of_ne_nil _ hd]
  cases h1 : HasSuffix (front ++ last) "\n" <;> cases h2 : HasSuffix last "\n" <;> simp_all

/-! ## The claims about the report -/

/-- C5: when a pipeline is selected and it has no issue, or every one of its issues
resolves to an empty title, `showIssues` returns after printing the heading and then the
sentinel `😄  No Issue`, which is not the empty string. -/
theorem showIssues_no_issue (c : Env) (stdout : List String) (config : Config)
    (board : Board) (p : Pipeline)
    (hload : loadBoard c = .inr (stdout, config, board))
    (hfind : board.Pipelines.Find (fun p => p.Name == c.pipeline) = (p, true))
    (hempty : ∀ i ∈ p.Issues, ∃ issue,
      c.queryIssue config.Token.GitHub c.owner c.repo (githubqlInt i.IssueNumber) = .ok issue ∧
        issue.Title = "") :
    showIssues c = .returned (stdout ++
      ["🔽  " ++ c.owner ++ "/" ++ c.repo ++ ": " ++ c.pipeline ++ "'s issues here:",
        "😄  No Issue"]) ∧
    "😄  No Issue" ≠ "" := by
  have hmsg : message c.queryIssue config.Token.GitHub c.owner c.repo (toNumber p.Issues) =
      .ok [] := by
    apply message_all_empty
    intro num hnum
    obtain ⟨i, hi, rfl⟩ := (mem_toNumber p.Issues num).mp hnum
    exact hempty i hi
  refine ⟨?_, by decide⟩
  rw [showIssues_of_loadBoard c stdout config board hload,
    selectAndReport_found c stdout config board p [] hfind hmsg, printedSummary_nil]

/-- Witness of C5: the pipeline `Backlog` of the scenario holds one issue and it has no
title; a board whose selected pipeline is empty gives the same report. -/
theorem showIssues_no_issue_witness :
    showIssues { scenario with pipeline := "Backlog" } =
      .returned ["🔽  acme/widget: Backlog's issues here:", "😄  No Issue"] ∧
    showIssues { scenario with unmarshal := fun _ => .ok ⟨[⟨"In Progress", []⟩]⟩ } =
      .returned ["🔽  acme/widget: In Progress's issues here:", "😄  No Issue"] :=
  ⟨(showIssues_no_issue { scenario with pipeline := "Backlog" } []
      ⟨⟨"github-token", "zenhub-token"⟩⟩
      ⟨[⟨"Backlog", [⟨1⟩]⟩, ⟨"In Progress", [⟨7⟩, ⟨8⟩]⟩]⟩ ⟨"Backlog", [⟨1⟩]⟩
      (by decide) (by decide)
      (by intro i hi; rw [List.mem_singleton] at hi; subst hi; exact ⟨⟨"", ""⟩, rfl, rfl⟩)).1,
    (showIssues_no_issue { scenario with unmarshal := fun _ => .ok ⟨[⟨"In Progress", []⟩]⟩ } []
      ⟨⟨"github-token", "zenhub-token"⟩⟩ ⟨[⟨"In Progress", []⟩]⟩ ⟨"In Progress", []⟩
      (by decide) (by decide) (by intro i hi; exact absurd hi (List.not_mem_nil i))).1⟩

/-- Counterexample to C6: one issue whose URL ends with a newline.  `message` sends one
line, the buffer ends with two newlines, `TrimSuffix` removes one, and the summary still
ends with a newline. -/
theorem summary_may_end_with_newline :
    message (fun _ _ _ _ => .ok ⟨"t", "u\n"⟩) "token" "acme" "widget" (toNumber [⟨1⟩]) =
      .ok ["#1: t : u\n"] ∧
    bufferOf ["#1: t : u\n"] = "#1: t : u\n\n" ∧
    summaryOf ["#1: t : u\n"] = "#1: t : u\n" ∧
    HasSuffix (summaryOf ["#1: t : u\n"]) "\n" = true :=
  ⟨rfl, by decide, by decide, by decide⟩

/-- C6, amended: for every non-empty sequence of lines sent by `message`, the summary
printed by `showIssues` is the lines joined by single newlines; the one newline appended
after the last line is removed and no other, so the summary ends with a newline exactly
when the last line does. -/
theorem summaryOf_joins_lines
    (query : String → String → String → Int → Except String IssueFragment)
    (token owner repo : String) (received : List Int) (out : List String)
    (hmsg : message query token owner repo received = .ok out) (hne : out ≠ []) :
    summaryOf out = String.intercalate "\n" out ∧
    printedSummary out = summaryOf out ∧
    bufferOf out = summaryOf out ++ "\n" ∧
    HasSuffix (summaryOf out) "\n" = HasSuffix (out.getLast hne) "\n" := by
  have hstart := message_lines_start query token owner repo received out hmsg
  refine ⟨summaryOf_eq_intercalate out hne, (printedSummary_of_lines out hne hstart).1, ?_, ?_⟩
  · cases out with
    | nil => exact absurd rfl hne
    | cons msg rest =>
      rw [summaryOf_eq_intercalate _ (List.cons_ne_nil msg rest), bufferOf_cons]
  · obtain ⟨tail, ht⟩ := hstart (out.getLast hne) (List.getLast_mem hne)
    have hlast : out.getLast hne ≠ "" := by rw [ht]; exact hash_append_ne_empty tail
    have hsplit : summaryOf out = bufferOf out.dropLast ++ out.getLast hne := by
      conv_lhs => rw [← List.dropLast_append_getLast hne]
      exact summaryOf_append_singleton _ _
    rw [hsplit]
    exact HasSuffix_append_of_ne_empty _ _ hlast

/-- Witness of C6, amended: two lines joined by one newline, no newline at the end. -/
theorem summaryOf_joins_lines_witness :
    summaryOf ["#7: Add logging : .../7", "#9: Fix bug : .../9"] =
      "#7: Add logging : .../7\n#9: Fix bug : .../9" ∧
    HasSuffix (summaryOf ["#7: Add logging : .../7", "#9: Fix bug : .../9"]) "\n" = false :=
  have h := summaryOf_joins_lines
    (fun _ _ _ number => .ok (if number = 7 then ⟨"Add logging", ".../7"⟩ else ⟨"Fix bug", ".../9"⟩))
    "token" "acme" "widget" [7, 9] ["#7: Add logging : .../7", "#9: Fix bug : .../9"] rfl
    (by decide)
  ⟨h.1.trans (by decide), h.2.2.2.trans (by decide)⟩

/-- A run that returns within lines 145 to 185 stopped at the flag check or at the token
check. -/
theorem resolveRepository_returned (c : Env) (printed : List String)
    (h : resolveRepository c = .inl (.returned printed)) :
    ((c.owner == "" || c.repo == "" || c.pipeline == "") = true ∧
      printed = log c.verbose [] "👀  Load global flags..." ++
        ["❌  Please set --owner, --repo, and --pipeline. See help."]) ∨
    (∃ config, c.decodeFile c.tomlData = .ok config ∧
      (config.Token.GitHub = "" ∨ config.Token.ZenHub = "") ∧
      printed = log c.verbose (log c.verbose [] "👀  Load global flags...")
          "📄  Load token settings from toml..." ++
        ["❌  Please set your token in " ++ c.tomlData ++ ". Just like below:\n" ++
          "[token]\ngithub = \"xxx...\"\nzenhub = \"yyy...\""]) := by
  by_cases hflags : (c.owner == "" || c.repo == "" || c.pipeline == "") = true
  · left
    simp only [resolveRepository, hflags, if_true, Sum.inl.injEq, Outcome.returned.injEq] at h
    exact ⟨hflags, h.symm⟩
  · right
    have hf : (c.owner == "" || c.repo == "" || c.pipeline == "") = false :=
      (Bool.not_eq_true _).mp hflags
    simp only [resolveRepository, hf, Bool.false_eq_true, if_false] at h
    cases hdec : c.decodeFile c.tomlData with
    | error err => simp [hdec] at h
    | ok config =>
      simp only [hdec] at h
      by_cases hg : config.Token.GitHub = ""
      · simp only [hg, beq_self_eq_true, if_true] at h
        have hpos : 1 + (if (config.Token.ZenHub == "") = true then 1 else 0) > 0 := by
          split <;> omega
        simp only [hpos, if_true, Sum.inl.injEq, Outcome.returned.injEq] at h
        exact ⟨config, rfl, Or.inl hg, h.symm⟩
      · by_cases hz : config.Token.ZenHub = ""
        · have hgb : (config.Token.GitHub == "") = false := by simpa using hg
          simp only [hgb, hz, beq_self_eq_true, if_true] at h
          simp only [Bool.false_eq_true, if_false, Nat.zero_add, gt_iff_lt, Nat.lt_one_iff,
            Nat.zero_lt_one, if_true, Sum.inl.injEq, Outcome.returned.injEq] at h
          exact ⟨config, rfl, Or.inr hz, h.symm⟩
        · have hgb : (config.Token.GitHub == "") = false := by simpa using hg
          have hzb : (config.Token.ZenHub == "") = false := by simpa using hz
          simp only [hgb, hzb, Bool.false_eq_true, if_false, Nat.add_zero, gt_iff_lt,
            Nat.lt_irrefl] at h
          cases hq : c.queryRepoId config.Token.GitHub c.owner c.repo with
          | error err => simp [hq] at h
          | ok databaseId => simp [hq] at h

/-- A run that ends within lines 187 to 201 ends in a panic. -/
theorem fetchBoard_ended (c : Env) (stdout : List String) (config : Config)
    (databaseId : Int) (ended : Outcome)
    (h : fetchBoard c stdout config databaseId = .inl ended) :
    ∃ printed err, ended = .panicked printed err := by
  simp only [fetchBoard] at h
  cases hdo : c.zenHubDo
      ("https://api.zenhub.io/p1/repositories/" ++ Itoa databaseId ++ "/board")
      config.Token.ZenHub with
  | none =>
    simp only [hdo, Sum.inl.injEq] at h
    exact ⟨_, _, h.symm⟩
  | some resp =>
    simp only [hdo] at h
    cases hbody : c.unmarshal resp.Body with
    | error err =>
      simp only [hbody, Sum.inl.injEq] at h
      exact ⟨_, _, h.symm⟩
    | ok board => simp [hbody] at h

/-- A run that returns within lines 145 to 201 stopped at the flag check or at the token
check. -/
theorem loadBoard_returned (c : Env) (printed : List String)
    (h : loadBoard c = .inl (.returned printed)) :
    resolveRepository c = .inl (.returned printed) := by
  simp only [loadBoard] at h
  cases hres : resolveRepository c with
  | inl ended =>
    simp only [hres, Sum.inl.injEq] at h
    rw [h]
  | inr r =>
    obtain ⟨stdout, config, databaseId⟩ := r
    simp only [hres] at h
    cases hfetch : fetchBoard c stdout config databaseId with
    | inl ended =>
      simp only [hfetch, Sum.inl.injEq] at h
      obtain ⟨s, e, hs⟩ := fetchBoard_ended c stdout config databaseId ended hfetch
      rw [hs] at h
      exact absurd h (by simp)
    | inr r' => simp [hfetch] at h

/-- A run that returns within lines 202 to 224 printed the not-found message, no pipeline
having the requested name, or the heading and the summary of a selected pipeline. -/
theorem selectAndReport_returned (c : Env) (stdout : List String) (config : Config)
    (board : Board) (printed : List String)
    (h : selectAndReport c stdout config board = .returned printed) :
    ((∀ q ∈ board.Pipelines, q.Name ≠ c.pipeline) ∧
      printed = stdout ++ ["❌  Not Found: " ++ c.pipeline,
        "❌  Please check whether if your ZenHub pipeline's name is correct."]) ∨
    (∃ p out, board.Pipelines.Find (fun p => p.Name == c.pipeline) = (p, true) ∧
      message c.queryIssue config.Token.GitHub c.owner c.repo (toNumber p.Issues) = .ok out ∧
      printed = stdout ++
        ["🔽  " ++ c.owner ++ "/" ++ c.repo ++ ": " ++ c.pipeline ++ "'s issues here:",
          printedSummary out]) := by
  cases hfind : board.Pipelines.Find (fun p => p.Name == c.pipeline) with
  | mk p found =>
    cases found with
    | false =>
      left
      have hnone : ∀ q ∈ board.Pipelines, q.Name ≠ c.pipeline := by
        have := (Find_snd_false_iff (fun p => p.Name == c.pipeline) board.Pipelines).mp
          (by rw [hfind])
        simpa using this
      simp only [selectAndReport, hfind, Bool.not_false, if_true,
        Outcome.returned.injEq] at h
      exact ⟨hnone, h.symm⟩
    | true =>
      right
      simp only [selectAndReport, hfind, Bool.not_true, Bool.false_eq_true, if_false] at h
      cases hmsg : message c.queryIssue config.Token.GitHub c.owner c.repo
          (toNumber p.Issues) with
      | error err => simp [hmsg] at h
      | ok out =>
        simp only [hmsg, Outcome.returned.injEq] at h
        exact ⟨p, out, rfl, hmsg, by rw [← h]; simp⟩

/-- Counterexample to C7: in the scenario `showIssues` prints two lines, the heading of
line 212 and then the issue line, not the issue line alone; and a run can return normally
having printed neither issue lines nor the sentinel: the not-found message when no
pipeline is named `Done`, the flag message when the owner is missing, the token message
when a credential is empty. -/
theorem normal_returns_print_other_things :
    showIssues scenario =
      .returned ["🔽  acme/widget: In Progress's issues here:", "#7: Add logging : .../7"] ∧
    showIssues scenario ≠ .returned ["#7: Add logging : .../7"] ∧
    showIssues { scenario with pipeline := "Done" } =
      .returned ["❌  Not Found: Done",
        "❌  Please check whether if your ZenHub pipeline's name is correct."] ∧
    showIssues { scenario with owner := "" } =
      .returned ["❌  Please set --owner, --repo, and --pipeline. See help."] ∧
    showIssues { scenario with decodeFile := fun _ => .ok ⟨⟨"github-token", ""⟩⟩ } =
      .returned ["❌  Please set your token in /home/dev/.config/peekabow/config.toml" ++
        ". Just like below:\n[token]\ngithub = \"xxx...\"\nzenhub = \"yyy...\""] :=
  ⟨by decide, by decide, by decide, by decide, by decide⟩

/-- C7, amended: in the scenario (owner `acme`, repository `widget`, pipeline
`In Progress`, id 555, issues 7 and 8 of which only 7 has a title) `showIssues` returns
after printing the heading `🔽  acme/widget: In Progress's issues here:` and then the
single line `#7: Add logging : .../7`.  In general a run that selects a pipeline and whose
queries answer prints, after the heading, either the sentinel, when no line was sent, or
the sent lines joined by newlines; and every run that returns normally printed, after the
progress messages of `--verbose`, exactly one of: the flag message, the token message, the
two lines of the not-found message, or the heading followed by the sentinel or by the
joined lines. -/
theorem showIssues_end_to_end :
    showIssues scenario =
      .returned ["🔽  acme/widget: In Progress's issues here:", "#7: Add logging : .../7"] ∧
    (∀ (c : Env) (stdout : List String) (config : Config) (board : Board) (p : Pipeline)
      (out : List String),
      loadBoard c = .inr (stdout, config, board) →
      board.Pipelines.Find (fun p => p.Name == c.pipeline) = (p, true) →
      message c.queryIssue config.Token.GitHub c.owner c.repo (toNumber p.Issues) = .ok out →
      (out = [] ∧ showIssues c = .returned (stdout ++
        ["🔽  " ++ c.owner ++ "/" ++ c.repo ++ ": " ++ c.pipeline ++ "'s issues here:",
          "😄  No Issue"])) ∨
      (out ≠ [] ∧ showIssues c = .returned (stdout ++
        ["🔽  " ++ c.owner ++ "/" ++ c.repo ++ ": " ++ c.pipeline ++ "'s issues here:",
          String.intercalate "\n" out]))) ∧
    (∀ (c : Env) (printed : List String), showIssues c = .returned printed →
      ((c.owner == "" || c.repo == "" || c.pipeline == "") = true ∧
        printed = log c.verbose [] "👀  Load global flags..." ++
          ["❌  Please set --owner, --repo, and --pipeline. See help."]) ∨
      (∃ config, c.decodeFile c.tomlData = .ok config ∧
        (config.Token.GitHub = "" ∨ config.Token.ZenHub = "") ∧
        printed = log c.verbose (log c.verbose [] "👀  Load global flags...")
            "📄  Load token settings from toml..." ++
          ["❌  Please set your token in " ++ c.tomlData ++ ". Just like below:\n" ++
            "[token]\ngithub = \"xxx...\"\nzenhub = \"yyy...\""]) ∨
      (∃ stdout config board, loadBoard c = .inr (stdout, config, board) ∧
        (∀ q ∈ board.Pipelines, q.Name ≠ c.pipeline) ∧
        printed = stdout ++ ["❌  Not Found: " ++ c.pipeline,
          "❌  Please check whether if your ZenHub pipeline's name is correct."]) ∨
      (∃ stdout config board p out, loadBoard c = .inr (stdout, config, board) ∧
        board.Pipelines.Find (fun p => p.Name == c.pipeline) = (p, true) ∧
        message c.queryIssue config.Token.GitHub c.owner c.repo (toNumber p.Issues) =
          .ok out ∧
        ((out = [] ∧ printed = stdout ++
          ["🔽  " ++ c.owner ++ "/" ++ c.repo ++ ": " ++ c.pipeline ++ "'s issues here:",
            "😄  No Issue"]) ∨
        (out ≠ [] ∧ printed = stdout ++
          ["🔽  " ++ c.owner ++ "/" ++ c.repo ++ ": " ++ c.pipeline ++ "'s issues here:",
            String.intercalate "\n" out])))) := by
  have found : ∀ (c : Env) (stdout : List String) (config : Config) (board : Board)
      (p : Pipeline) (out : List String),
      loadBoard c = .inr (stdout, config, board) →
      board.Pipelines.Find (fun p => p.Name == c.pipeline) = (p, true) →
      message c.queryIssue config.Token.GitHub c.owner c.repo (toNumber p.Issues) = .ok out →
      (out = [] ∧ showIssues c = .returned (stdout ++
        ["🔽  " ++ c.owner ++ "/" ++ c.repo ++ ": " ++ c.pipeline ++ "'s issues here:",
          "😄  No Issue"])) ∨
      (out ≠ [] ∧ showIssues c = .returned (stdout ++
        ["🔽  " ++ c.owner ++ "/" ++ c.repo ++ ": " ++ c.pipeline ++ "'s issues here:",
          String.intercalate "\n" out])) := by
    intro c stdout config board p out hload hfind hmsg
    rw [showIssues_of_loadBoard c stdout config board hload,
      selectAndReport_found c stdout config board p out hfind hmsg]
    by_cases hout : out = []
    · left
      subst hout
      exact ⟨rfl, by rw [printedSummary_nil]⟩
    · right
      have hstart := message_lines_start _ _ _ _ _ out hmsg
      refine ⟨hout, ?_⟩
      rw [(printedSummary_of_lines out hout hstart).1, summaryOf_eq_intercalate out hout]
  refine ⟨by decide, found, ?_⟩
  intro c printed hret
  cases hload : loadBoard c with
  | inl ended =>
    have hended : ended = .returned printed := by
      simpa [showIssues, hload] using hret
    rw [hended] at hload
    rcases resolveRepository_returned c printed (loadBoard_returned c printed hload) with
      h | h
    · exact Or.inl h
    · exact Or.inr (Or.inl h)
  | inr r =>
    obtain ⟨stdout, config, board⟩ := r
    rw [showIssues_of_loadBoard c stdout config board hload] at hret
    rcases selectAndReport_returned c stdout config board printed hret with
      ⟨hnone, hp⟩ | ⟨p, out, hfind, hmsg, hp⟩
    · exact Or.inr (Or.inr (Or.inl ⟨stdout, config, board, rfl, hnone, hp⟩))
    · refine Or.inr (Or.inr (Or.inr ⟨stdout, config, board, p, out, rfl, hfind, hmsg, ?_⟩))
      by_cases hout : out = []
      · left
        subst hout
        exact ⟨rfl, by rw [hp, printedSummary_nil]⟩
      · right
        have hstart := message_lines_start _ _ _ _ _ out hmsg
        refine ⟨hout, ?_⟩
        rw [hp, (printedSummary_of_lines out hout hstart).1, summaryOf_eq_intercalate out hout]

/-- Witness of C7, amended: the scenario resolves the repository id 555, loads the board,
and the general statement applied to it gives the heading followed by the one line
sent. -/
theorem showIssues_end_to_end_witness :
    resolveRepository scenario = .inr ([], ⟨⟨"github-token", "zenhub-token"⟩⟩, 555) ∧
    loadBoard scenario = .inr ([], ⟨⟨"github-token", "zenhub-token"⟩⟩,
      ⟨[⟨"Backlog", [⟨1⟩]⟩, ⟨"In Progress", [⟨7⟩, ⟨8⟩]⟩]⟩) ∧
    showIssues scenario = .returned ([] ++
      ["🔽  " ++ scenario.owner ++ "/" ++ scenario.repo ++ ": " ++ scenario.pipeline ++
        "'s issues here:", String.intercalate "\n" ["#7: Add logging : .../7"]]) :=
  ⟨by decide, by decide,
    ((showIssues_end_to_end.2.1 scenario [] ⟨⟨"github-token", "zenhub-token"⟩⟩
      ⟨[⟨"Backlog", [⟨1⟩]⟩, ⟨"In Progress", [⟨7⟩, ⟨8⟩]⟩]⟩ ⟨"In Progress", [⟨7⟩, ⟨8⟩]⟩
      ["#7: Add logging : .../7"] (by decide) (by decide) rfl).resolve_left
        (fun h => absurd h.1 (by decide))).2⟩

theorem showIssues_of_resolve (c : Env) (stdout : List String) (config : Config)
    (databaseId : Int) (hres : resolveRepository c = .inr (stdout, config, databaseId)) :
    showIssues c =
      match fetchBoard c stdout config databaseId with
      | .inl ended => ended
      | .inr (stdout, board) => selectAndReport c stdout config board := by
  simp only [showIssues, loadBoard, hres]
  cases fetchBoard c stdout config databaseId with
  | inl ended => rfl
  | inr r => rfl

/-- The status of the board response has no effect on the run. -/
theorem showIssues_withStatus (c : Env) (status : Nat) :
    showIssues (withStatus c status) = showIssues c := by
  have hres : resolveRepository (withStatus c status) = resolveRepository c := rfl
  have hsel : ∀ stdout config board,
      selectAndReport (withStatus c status) stdout config board =
        selectAndReport c stdout config board := fun _ _ _ => rfl
  have hfetch : ∀ stdout config databaseId,
      fetchBoard (withStatus c status) stdout config databaseId =
        fetchBoard c stdout config databaseId := by
    intro stdout config databaseId
    simp only [fetchBoard, withStatus]
    cases c.zenHubDo ("https://api.zenhub.io/p1/repositories/" ++ Itoa databaseId ++ "/board")
      config.Token.ZenHub with
    | none => rfl
    | some resp => rfl
  simp only [showIssues, loadBoard, hres, hfetch, hsel]

/-- Counterexample to C8: the board service answers with status 404 and a well-formed
JSON error object without `pipelines`.  The run does not abort: the reply is taken for a
board with no pipeline and the not-found message is printed. -/
theorem non_success_status_is_not_fatal :
    errorReply.zenHubDo "https://api.zenhub.io/p1/repositories/555/board" "zenhub-token" =
      some ⟨404, errorJson⟩ ∧
    showIssues errorReply =
      .returned ["❌  Not Found: In Progress",
        "❌  Please check whether if your ZenHub pipeline's name is correct."] :=
  ⟨by decide, by decide⟩

/-- C8, amended: once the repository id is known, the board fetch aborts the run, with
no not-found message and no summary printed, when the transport gives no response or when
the body does not decode into a `Board`.  The HTTP status is never read: a response whose
body decodes is used whatever its status, and one that decodes to a board without
pipelines leads to the not-found message. -/
theorem showIssues_board_fetch (c : Env) (stdout : List String) (config : Config)
    (databaseId : Int) (hres : resolveRepository c = .inr (stdout, config, databaseId)) :
    (c.zenHubDo ("https://api.zenhub.io/p1/repositories/" ++ Itoa databaseId ++ "/board")
        config.Token.ZenHub = none →
      showIssues c =
        .panicked (log c.verbose stdout "🔍  Search pipeline issues from ZenHub...")
          "runtime error: invalid memory address or nil pointer dereference") ∧
    (∀ resp err,
      c.zenHubDo ("https://api.zenhub.io/p1/repositories/" ++ Itoa databaseId ++ "/board")
        config.Token.ZenHub = some resp →
      c.unmarshal resp.Body = .error err →
      showIssues c =
        .panicked (log c.verbose stdout "🔍  Search pipeline issues from ZenHub...") err) ∧
    (∀ resp board,
      c.zenHubDo ("https://api.zenhub.io/p1/repositories/" ++ Itoa databaseId ++ "/board")
        config.Token.ZenHub = some resp →
      c.unmarshal resp.Body = .ok board →
      showIssues c = selectAndReport c
        (log c.verbose stdout "🔍  Search pipeline issues from ZenHub...") config board) ∧
    (∀ resp,
      c.zenHubDo ("https://api.zenhub.io/p1/repositories/" ++ Itoa databaseId ++ "/board")
        config.Token.ZenHub = some resp →
      c.unmarshal resp.Body = .ok ⟨[]⟩ →
      showIssues c =
        .returned (log c.verbose stdout "🔍  Search pipeline issues from ZenHub..." ++
          ["❌  Not Found: " ++ c.pipeline,
            "❌  Please check whether if your ZenHub pipeline's name is correct."])) ∧
    (∀ status, showIssues (withStatus c status) = showIssues c) := by
  have hshow := showIssues_of_resolve c stdout config databaseId hres
  refine ⟨?_, ?_, ?_, ?_, showIssues_withStatus c⟩
  · intro hdo
    rw [hshow]
    simp [fetchBoard, hdo]
  · intro resp err hdo hbody
    rw [hshow]
    simp [fetchBoard, hdo, hbody]
  · intro resp board hdo hbody
    rw [hshow]
    simp [fetchBoard, hdo, hbody]
  · intro resp hdo hbody
    rw [hshow]
    simp [fetchBoard, hdo, hbody, selectAndReport, Pipelines.Find]

/-- Witness of C8, amended: without a response the run panics before anything is
printed; with the 404 error object it returns the not-found message. -/
theorem showIssues_board_fetch_witness :
    showIssues { scenario with zenHubDo := fun _ _ => none } =
      .panicked [] "runtime error: invalid memory address or nil pointer dereference" ∧
    showIssues errorReply =
      .returned ([] ++ ["❌  Not Found: In Progress",
        "❌  Please check whether if your ZenHub pipeline's name is correct."]) :=
  ⟨(showIssues_board_fetch { scenario with zenHubDo := fun _ _ => none } []
      ⟨⟨"github-token", "zenhub-token"⟩⟩ 555 (by decide)).1 rfl,
    (showIssues_board_fetch errorReply [] ⟨⟨"github-token", "zenhub-token"⟩⟩ 555
      (by decide)).2.2.2.1 ⟨404, errorJson⟩ rfl rfl⟩

/-- C10: when a pipeline is selected and every query of the run answers, `showIssues`
prints the sentinel exactly when `message` sent no line, which happens exactly when every
issue resolved to an empty title.  As soon as one line is sent the trimmed summary begins
with `#`, so it is not empty and it is the text printed, whatever the titles and URLs
contain. -/
theorem showIssues_sentinel_iff (c : Env) (stdout : List String) (config : Config)
    (board : Board) (p : Pipeline) (out : List String)
    (hload : loadBoard c = .inr (stdout, config, board))
    (hfind : board.Pipelines.Find (fun p => p.Name == c.pipeline) = (p, true))
    (hmsg : message c.queryIssue config.Token.GitHub c.owner c.repo (toNumber p.Issues) =
      .ok out) :
    (showIssues c = .returned (stdout ++
        ["🔽  " ++ c.owner ++ "/" ++ c.repo ++ ": " ++ c.pipeline ++ "'s issues here:",
          "😄  No Issue"]) ↔ out = []) ∧
    (out = [] ↔ ∀ i ∈ p.Issues, ∀ issue,
      c.queryIssue config.Token.GitHub c.owner c.repo (githubqlInt i.IssueNumber) = .ok issue →
        issue.Title = "") ∧
    (out ≠ [] →
      (∃ tail : String, summaryOf out = "#" ++ tail) ∧ summaryOf out ≠ "" ∧
      showIssues c = .returned (stdout ++
        ["🔽  " ++ c.owner ++ "/" ++ c.repo ++ ": " ++ c.pipeline ++ "'s issues here:",
          summaryOf out])) := by
  have hshow : showIssues c = .returned (stdout ++
      ["🔽  " ++ c.owner ++ "/" ++ c.repo ++ ": " ++ c.pipeline ++ "'s issues here:",
        printedSummary out]) := by
    rw [showIssues_of_loadBoard c stdout config board hload,
      selectAndReport_found c stdout config board p out hfind hmsg]
  have hstart := message_lines_start _ _ _ _ _ out hmsg
  refine ⟨⟨?_, ?_⟩, ?_, ?_⟩
  · intro h
    by_contra hout
    obtain ⟨hp, _, hs⟩ := printedSummary_of_lines out hout hstart
    rw [hshow, hp] at h
    simp only [Outcome.returned.injEq, List.append_cancel_left_eq, List.cons.injEq,
      and_true, true_and] at h
    exact hs h
  · intro hout
    rw [hshow, hout, printedSummary_nil]
  · rw [message_nil_iff _ _ _ _ _ out hmsg]
    constructor
    · intro h i hi issue hq
      exact h i.IssueNumber ((mem_toNumber p.Issues _).mpr ⟨i, hi, rfl⟩) issue hq
    · intro h num hnum issue hq
      obtain ⟨i, hi, rfl⟩ := (mem_toNumber p.Issues num).mp hnum
      exact h i hi issue hq
  · intro hout
    obtain ⟨hp, hne, _⟩ := printedSummary_of_lines out hout hstart
    exact ⟨summaryOf_starts_with_hash out hout hstart, hne, by rw [hshow, hp]⟩

/-- Witness of C10: in the scenario one line is sent and it is printed; a title and a URL
made of newlines only are printed too, not hidden behind the sentinel. -/
theorem showIssues_sentinel_iff_witness :
    showIssues scenario =
      .returned ["🔽  acme/widget: In Progress's issues here:", "#7: Add logging : .../7"] ∧
    showIssues { scenario with queryIssue := fun _ _ _ _ => .ok ⟨"\n", "\n"⟩ } =
      .returned ["🔽  acme/widget: In Progress's issues here:",
        "#7: \n : \n\n#8: \n : \n"] :=
  ⟨((showIssues_sentinel_iff scenario [] ⟨⟨"github-token", "zenhub-token"⟩⟩
      ⟨[⟨"Backlog", [⟨1⟩]⟩, ⟨"In Progress", [⟨7⟩, ⟨8⟩]⟩]⟩ ⟨"In Progress", [⟨7⟩, ⟨8⟩]⟩
      ["#7: Add logging : .../7"] (by decide) (by decide) rfl).2.2 (by decide)).2.2.trans
      (by decide),
    ((showIssues_sentinel_iff { scenario with queryIssue := fun _ _ _ _ => .ok ⟨"\n", "\n"⟩ }
      [] ⟨⟨"github-token", "zenhub-token"⟩⟩
      ⟨[⟨"Backlog", [⟨1⟩]⟩, ⟨"In Progress", [⟨7⟩, ⟨8⟩]⟩]⟩ ⟨"In Progress", [⟨7⟩, ⟨8⟩]⟩
      ["#7: \n : \n", "#8: \n : \n"] (by decide) (by decide) rfl).2.2 (by decide)).2.2.trans
      (by decide)⟩

end Peekabow
